import Mathlib

/-!
Verification of the ProtectorIMG watermarking core.

The compositing pass of the application (the watermarking useEffect in
src/src/components/WatermarkApp.jsx, lines 266-336) is embedded as a pure
function from the relevant component state to a display list of canvas
draw operations.  The JavaScript for-loops over rational tile positions
are embedded as a fuel-based generator with a proven closed form.  The
surrounding UI state handlers are embedded as a transition system, and
the steganographic export step is embedded with the encoder as an
explicit fallible parameter.
-/

namespace ProtectorIMG

/-- A decoded raster image: dimensions plus abstract RGBA pixel data. -/
structure RasterImage where
  width : ℕ
  height : ℕ
  pixels : List ℕ
deriving DecidableEq, Repr

/-- Value of one hexadecimal digit character, as parseInt with radix 16
reads it (a non-digit contributes nothing). -/
def hexDigitVal (c : Char) : ℕ :=
  if '0' ≤ c ∧ c ≤ '9' then c.toNat - Char.toNat '0'
  else if 'a' ≤ c ∧ c ≤ 'f' then c.toNat - Char.toNat 'a' + 10
  else if 'A' ≤ c ∧ c ≤ 'F' then c.toNat - Char.toNat 'A' + 10
  else 0

/-- Embedding of parseInt(textColor.substr(start, 2), 16): read the two
hex digits of a color channel starting at position start. -/
def parseHexByte (s : String) (start : ℕ) : ℕ :=
  match s.data.drop start with
  | c1 :: c2 :: _ => 16 * hexDigitVal c1 + hexDigitVal c2
  | [c1] => hexDigitVal c1
  | [] => 0

/-- Embedding of line 284: const spacing = Math.max(canvas.width, canvas.height) / density. -/
def spacing (w h : ℕ) (density : ℕ) : ℚ :=
  ((Nat.max w h : ℕ) : ℚ) / (density : ℚ)

/-- Fuel-based unfolding of the loop for (v = cur; v < stop; v += step),
collecting the successive values of the loop variable. -/
def gridAux (stop step : ℚ) : ℕ → ℚ → List ℚ
  | 0, _ => []
  | fuel + 1, cur => if cur < stop then cur :: gridAux stop step fuel (cur + step) else []

/-- Values taken by the loop variable of for (v = start; v < stop; v += step)
for a positive step; the fuel Nat.ceil ((stop - start) / step) is exactly the
number of iterations (proved below in gridPositions_closed). -/
def gridPositions (start stop step : ℚ) : List ℚ :=
  if 0 < step then gridAux stop step (Nat.ceil ((stop - start) / step)) start else []

/-- One recorded canvas drawing operation of the watermark pass. -/
inductive DrawOp where
  /-- ctx.fillText(signature, x, y) together with the ambient ctx.font
  size and the rgba fill style in force (lines 297-308). -/
  | fillText (text : String) (x y : ℚ) (fontPx : ℕ) (r g b : ℕ) (alpha : ℚ)
  /-- ctx.drawImage(signatureImage, x, y, width, height) (line 324). -/
  | drawImageScaled (img : RasterImage) (x y w h : ℚ)
deriving DecidableEq, Repr

/-- The component state consumed by the compositing pass: the dependency
list of the watermarking useEffect, with the base image loaded. -/
structure CompositorInput where
  image : RasterImage
  signature : String
  signatureImage : Option RasterImage
  opacity : ℚ
  angle : ℚ
  density : ℕ
  fontSize : ℕ
  textColor : String
  signatureSize : ℕ
deriving DecidableEq, Repr

/-- Result of the compositing pass: the canvas sized to the base image,
the base blitted at the origin before the rotation (line 281), then the
watermark operations recorded in the coordinate space rotated by
angleDeg degrees (line 290) with globalAlpha (line 293). -/
structure CompositeOutput where
  width : ℕ
  height : ℕ
  base : RasterImage
  angleDeg : ℚ
  globalAlpha : ℚ
  watermarkOps : List DrawOp
deriving DecidableEq, Repr

/-- Embedding of the body of the watermarking useEffect (lines 272-333):
size the canvas to the image, draw the image, compute the spacing, rotate,
set the global alpha, then tile the text and/or image watermark over the
over-scan grid. -/
def composite (inp : CompositorInput) : CompositeOutput :=
  let w := inp.image.width
  let h := inp.image.height
  let s := spacing w h inp.density
  let textOps : List DrawOp :=
    if inp.signature ≠ "" then
      let r := parseHexByte inp.textColor 1
      let g := parseHexByte inp.textColor 3
      let b := parseHexByte inp.textColor 5
      (gridPositions (-(h : ℚ)) ((h : ℚ) * 2) s).flatMap fun y =>
        (gridPositions (-(w : ℚ)) ((w : ℚ) * 2) s).map fun x =>
          DrawOp.fillText inp.signature x y inp.fontSize r g b inp.opacity
    else []
  let imageOps : List DrawOp :=
    match inp.signatureImage with
    | some sig =>
      let size : ℚ := ((w : ℚ) * (inp.signatureSize : ℚ)) / 100
      let ratio : ℚ := (sig.width : ℚ) / (sig.height : ℚ)
      let dw := size
      let dh := size / ratio
      (gridPositions (-(h : ℚ)) ((h : ℚ) * 2) s).flatMap fun y =>
        (gridPositions (-(w : ℚ)) ((w : ℚ) * 2) s).map fun x =>
          DrawOp.drawImageScaled sig x y dw dh
    | none => []
  { width := w
    height := h
    base := inp.image
    angleDeg := inp.angle
    globalAlpha := inp.opacity
    watermarkOps := textOps ++ imageOps }

/-- Position (x, y) of a recorded fillText call, none for an image draw. -/
def textPosOf : DrawOp → Option (ℚ × ℚ)
  | DrawOp.fillText _ x y _ _ _ _ _ => some (x, y)
  | DrawOp.drawImageScaled _ _ _ _ _ => none

/-- Positions (x, y) at which the composite drew the text signature. -/
def textDrawPositions (out : CompositeOutput) : List (ℚ × ℚ) :=
  out.watermarkOps.filterMap textPosOf

/-- The over-scan tile grid: every point (x, y) with y running from
-height up to (but not reaching) 2 * height in steps of s and x running
from -width up to (but not reaching) 2 * width in steps of s, in the
order the nested loops visit them. -/
def tileGrid (w h : ℕ) (s : ℚ) : List (ℚ × ℚ) :=
  (gridPositions (-(h : ℚ)) ((h : ℚ) * 2) s).flatMap fun y =>
    (gridPositions (-(w : ℚ)) ((w : ℚ) * 2) s).map fun x => (x, y)

/-- Peeling one iteration off a positive quantity: the ceiling of x is one
more than the ceiling of x - 1 when x is positive. -/
theorem natCeil_pos_succ (x : ℚ) (hx : 0 < x) :
    Nat.ceil x = Nat.ceil (x - 1) + 1 := by
  rw [Nat.ceil_eq_iff (Nat.succ_ne_zero _), Nat.succ_sub_one]
  refine ⟨?_, ?_⟩
  · rcases le_or_lt x 1 with h1 | h1
    · have h0 : Nat.ceil (x - 1) = 0 := Nat.ceil_eq_zero.mpr (by linarith)
      rw [h0, Nat.cast_zero]
      exact hx
    · have h2 : ((Nat.ceil (x - 1) : ℚ)) < (x - 1) + 1 :=
        Nat.ceil_lt_add_one (by linarith)
      linarith
  · have h3 : x - 1 ≤ ((Nat.ceil (x - 1) : ℚ)) := Nat.le_ceil _
    push_cast
    linarith

/-- The loop for (v = cur; v < stop; v += step) with positive step and fuel
equal to Nat.ceil ((stop - cur) / step) visits exactly the arithmetic
progression cur, cur + step, ... below stop. -/
theorem gridAux_closed (stop step : ℚ) (hstep : 0 < step) :
    ∀ (n : ℕ) (cur : ℚ), Nat.ceil ((stop - cur) / step) = n →
      gridAux stop step n cur = (List.range n).map fun k : ℕ => cur + (k : ℚ) * step := by
  intro n
  induction n with
  | zero =>
    intro cur _
    simp [gridAux]
  | succ m ih =>
    intro cur hn
    have hpos : 0 < (stop - cur) / step := by
      by_contra hc
      push_neg at hc
      have h0 : Nat.ceil ((stop - cur) / step) = 0 := Nat.ceil_eq_zero.mpr hc
      omega
    have hcur : cur < stop := by
      rcases div_pos_iff.mp hpos with ⟨ha, _⟩ | ⟨_, hb⟩
      · linarith
      · linarith
    have hrw : (stop - (cur + step)) / step = (stop - cur) / step - 1 := by
      field_simp
      ring
    have hnext : Nat.ceil ((stop - (cur + step)) / step) = m := by
      rw [hrw]
      have hstep1 := natCeil_pos_succ ((stop - cur) / step) hpos
      omega
    rw [gridAux, if_pos hcur, ih (cur + step) hnext, List.range_succ_eq_map,
      List.map_cons, List.map_map]
    refine congrArg₂ _ (by push_cast; ring) ?_
    refine List.map_congr_left ?_
    intro k _
    simp only [Function.comp_apply]
    push_cast
    ring

/-- Closed form of the loop positions for a positive step. -/
theorem gridPositions_closed (start stop step : ℚ) (hstep : 0 < step) :
    gridPositions start stop step =
      (List.range (Nat.ceil ((stop - start) / step))).map fun k : ℕ => start + (k : ℚ) * step := by
  rw [gridPositions, if_pos hstep]
  exact gridAux_closed stop step hstep _ start rfl

/-- Number of iterations of the loop for a positive step. -/
theorem gridPositions_length (start stop step : ℚ) (hstep : 0 < step) :
    (gridPositions start stop step).length = Nat.ceil ((stop - start) / step) := by
  rw [gridPositions_closed start stop step hstep]
  simp

theorem textPosOf_fillText (t : String) (x y : ℚ) (fp r g b : ℕ) (a : ℚ) :
    textPosOf (DrawOp.fillText t x y fp r g b a) = some (x, y) := rfl

theorem textPosOf_drawImageScaled (im : RasterImage) (x y w h : ℚ) :
    textPosOf (DrawOp.drawImageScaled im x y w h) = none := rfl

theorem filterMap_some_comp {α β : Type} (d : α → β) (l : List α) :
    (l.filterMap fun a => some (d a)) = l.map d := by
  induction l with
  | nil => rfl
  | cons a t ih => simp [List.filterMap_cons, ih]

theorem filterMap_none_comp {α β : Type} (l : List α) :
    (l.filterMap fun _ => (none : Option β)) = [] := by
  induction l with
  | nil => rfl
  | cons a t ih => simp [List.filterMap_cons, ih]

/-- With a non-empty text signature the composite draws the text at
exactly the over-scan tile grid positions, in loop order. -/
theorem textDrawPositions_composite (inp : CompositorInput) (hsig : inp.signature ≠ "") :
    textDrawPositions (composite inp) =
      tileGrid inp.image.width inp.image.height
        (spacing inp.image.width inp.image.height inp.density) := by
  cases hsi : inp.signatureImage with
  | none =>
      simp [textDrawPositions, composite, tileGrid, hsi, hsig, List.filterMap_append,
        List.filterMap_flatMap, List.filterMap_map, Function.comp_def, textPosOf_fillText,
        filterMap_some_comp]
  | some sig =>
      simp [textDrawPositions, composite, tileGrid, hsi, hsig, List.filterMap_append,
        List.filterMap_flatMap, List.filterMap_map, Function.comp_def, textPosOf_fillText,
        textPosOf_drawImageScaled, filterMap_some_comp, filterMap_none_comp]

/-- A 800×600 base image for the scenario checks. -/
def janeBase : RasterImage := { width := 800, height := 600, pixels := [] }

/-- The spec's text-signature scenario state: 800×600 base, text
signature, opacity 0.5, angle 45, density 3. -/
def janeInput : CompositorInput :=
  { image := janeBase, signature := "Jane Doe", signatureImage := none,
    opacity := 1 / 2, angle := 45, density := 3, fontSize := 20,
    textColor := "#000000", signatureSize := 100 }

/-- A 200×100 signature raster (aspect ratio 2) for the raster scenario. -/
def sig200 : RasterImage := { width := 200, height := 100, pixels := [] }

/-- The spec's raster-signature scenario state: 800×600 base, 200×100
signature image, size 100 percent. -/
def rasterInput : CompositorInput :=
  { image := janeBase, signature := "", signatureImage := some sig200,
    opacity := 1 / 2, angle := 45, density := 3, fontSize := 20,
    textColor := "#000000", signatureSize := 100 }

/-- C1: for a base image with positive dimensions, the composite has
exactly the base image's width and height. -/
theorem composite_preserves_dimensions (inp : CompositorInput)
    (hw : 0 < inp.image.width) (hh : 0 < inp.image.height) :
    (composite inp).width = inp.image.width ∧
      (composite inp).height = inp.image.height :=
  ⟨rfl, rfl⟩

/-- Witness for C1 at the 800×600 scenario input. -/
theorem composite_preserves_dimensions_witness :
    (0 < janeInput.image.width ∧ 0 < janeInput.image.height) ∧
      ((composite janeInput).width = janeInput.image.width ∧
        (composite janeInput).height = janeInput.image.height) :=
  ⟨⟨by decide, by decide⟩,
    composite_preserves_dimensions janeInput (by decide) (by decide)⟩

/-- C2 counterexample: on an 800×600 base with density 3 the spacing is
max(800,600)/3 = 800/3, which is not the 200 the claim asserts. -/
theorem spacing_scenario_not_200 : spacing 800 600 3 ≠ 200 := by
  norm_num [spacing]

/-- C2 (amended): with a non-empty text signature the composite draws the
text exactly at the points (x, y) with y from -height stepping by the
spacing while below 2*height and x from -width stepping by the spacing
while below 2*width, where spacing = max(width, height)/density; and in
the 800×600, density-3 scenario the spacing is 800/3 (not 200). -/
theorem text_tiles_cover_overscan_grid (inp : CompositorInput)
    (hsig : inp.signature ≠ "") (hw : 0 < inp.image.width)
    (hh : 0 < inp.image.height) (hd : 0 < inp.density) :
    (textDrawPositions (composite inp) =
      (List.range (Nat.ceil ((3 * (inp.image.height : ℚ)) /
          spacing inp.image.width inp.image.height inp.density))).flatMap
        fun i : ℕ =>
          (List.range (Nat.ceil ((3 * (inp.image.width : ℚ)) /
              spacing inp.image.width inp.image.height inp.density))).map
            fun j : ℕ =>
              (-(inp.image.width : ℚ) +
                  (j : ℚ) * spacing inp.image.width inp.image.height inp.density,
                -(inp.image.height : ℚ) +
                  (i : ℚ) * spacing inp.image.width inp.image.height inp.density))
    ∧ spacing 800 600 3 = 800 / 3 := by
  constructor
  · have hs : 0 < spacing inp.image.width inp.image.height inp.density := by
      apply div_pos
      · exact_mod_cast Nat.lt_of_lt_of_le hw (Nat.le_max_left _ _)
      · exact_mod_cast hd
    rw [textDrawPositions_composite inp hsig, tileGrid,
      gridPositions_closed _ _ _ hs, gridPositions_closed _ _ _ hs]
    have hhrw : ((inp.image.height : ℚ) * 2 - -(inp.image.height : ℚ)) /
        spacing inp.image.width inp.image.height inp.density =
        (3 * (inp.image.height : ℚ)) /
        spacing inp.image.width inp.image.height inp.density := by
      ring_nf
    have hwrw : ((inp.image.width : ℚ) * 2 - -(inp.image.width : ℚ)) /
        spacing inp.image.width inp.image.height inp.density =
        (3 * (inp.image.width : ℚ)) /
        spacing inp.image.width inp.image.height inp.density := by
      ring_nf
    rw [hhrw, hwrw]
    simp [List.flatMap_map, List.map_map, Function.comp_def]
  · norm_num [spacing]

/-- Witness for C2's amended statement at the text scenario input. -/
theorem text_tiles_cover_overscan_grid_witness :
    (janeInput.signature ≠ "" ∧ 0 < janeInput.image.width ∧
        0 < janeInput.image.height ∧ 0 < janeInput.density) ∧
      ((textDrawPositions (composite janeInput) =
        (List.range (Nat.ceil ((3 * (janeInput.image.height : ℚ)) /
            spacing janeInput.image.width janeInput.image.height janeInput.density))).flatMap
          fun i : ℕ =>
            (List.range (Nat.ceil ((3 * (janeInput.image.width : ℚ)) /
                spacing janeInput.image.width janeInput.image.height janeInput.density))).map
              fun j : ℕ =>
                (-(janeInput.image.width : ℚ) +
                    (j : ℚ) * spacing janeInput.image.width janeInput.image.height janeInput.density,
                  -(janeInput.image.height : ℚ) +
                    (i : ℚ) * spacing janeInput.image.width janeInput.image.height janeInput.density))
      ∧ spacing 800 600 3 = 800 / 3) :=
  ⟨⟨by decide, by decide, by decide, by decide⟩,
    text_tiles_cover_overscan_grid janeInput (by decide) (by decide) (by decide) (by decide)⟩

/-- C3: every raster watermark tile is drawn at width
canvasWidth * sizePercent / 100 and height width'/(sigWidth/sigHeight);
at 800 wide, sizePercent 100 and a 200×100 signature this is 800×400. -/
theorem raster_tiles_aspect (inp : CompositorInput) (sig : RasterImage)
    (hsi : inp.signatureImage = some sig) :
    (∀ im : RasterImage, ∀ x y dw dh : ℚ,
        DrawOp.drawImageScaled im x y dw dh ∈ (composite inp).watermarkOps →
          dw = ((inp.image.width : ℚ) * (inp.signatureSize : ℚ)) / 100 ∧
          dh = dw / ((sig.width : ℚ) / (sig.height : ℚ)))
    ∧ (inp.image.width = 800 → inp.signatureSize = 100 →
        sig.width = 200 → sig.height = 100 →
          ((inp.image.width : ℚ) * (inp.signatureSize : ℚ)) / 100 = 800 ∧
          (((inp.image.width : ℚ) * (inp.signatureSize : ℚ)) / 100) /
              ((sig.width : ℚ) / (sig.height : ℚ)) = 400) := by
  constructor
  · intro im x y dw dh hmem
    simp only [composite, hsi, List.mem_append] at hmem
    rcases hmem with hmem | hmem
    · split_ifs at hmem with hs
      · simp only [List.mem_flatMap, List.mem_map] at hmem
        obtain ⟨y1, _, x1, _, heq⟩ := hmem
        exact absurd heq (by simp)
      · exact absurd hmem (List.not_mem_nil _)
    · simp only [List.mem_flatMap, List.mem_map] at hmem
      obtain ⟨y1, _, x1, _, heq⟩ := hmem
      injection heq with h1 h2 h3 h4 h5
      refine ⟨h4.symm, ?_⟩
      rw [← h4]
      exact h5.symm
  · intro h1 h2 h3 h4
    rw [h1, h2, h3, h4]
    norm_num

/-- Witness for C3 at the raster scenario input. -/
theorem raster_tiles_aspect_witness :
    (rasterInput.signatureImage = some sig200) ∧
      ((∀ im : RasterImage, ∀ x y dw dh : ℚ,
          DrawOp.drawImageScaled im x y dw dh ∈ (composite rasterInput).watermarkOps →
            dw = ((rasterInput.image.width : ℚ) * (rasterInput.signatureSize : ℚ)) / 100 ∧
            dh = dw / ((sig200.width : ℚ) / (sig200.height : ℚ)))
      ∧ (rasterInput.image.width = 800 → rasterInput.signatureSize = 100 →
          sig200.width = 200 → sig200.height = 100 →
            ((rasterInput.image.width : ℚ) * (rasterInput.signatureSize : ℚ)) / 100 = 800 ∧
            (((rasterInput.image.width : ℚ) * (rasterInput.signatureSize : ℚ)) / 100) /
                ((sig200.width : ℚ) / (sig200.height : ℚ)) = 400)) :=
  ⟨rfl, raster_tiles_aspect rasterInput sig200 rfl⟩

/-- The component state relevant to the watermark pipeline: the useState
hooks of lines 11-20 (form/UI-only flags omitted). -/
structure AppState where
  image : Option RasterImage
  signature : String
  signatureImage : Option RasterImage
  watermarkedImage : Option CompositeOutput
  opacity : ℚ
  angle : ℚ
  density : ℕ
  fontSize : ℕ
  textColor : String
  signatureSize : ℕ
deriving DecidableEq, Repr

/-- The compositor input assembled from the current state once the base
image is known to be loaded. -/
def stateInput (img : RasterImage) (st : AppState) : CompositorInput :=
  { image := img, signature := st.signature,
    signatureImage := st.signatureImage, opacity := st.opacity,
    angle := st.angle, density := st.density, fontSize := st.fontSize,
    textColor := st.textColor, signatureSize := st.signatureSize }

/-- One run of the watermarking useEffect (lines 266-336): bail out when
no base image is loaded (line 267) or when neither signature is present
(line 268), otherwise store the freshly computed composite (line 333). -/
def watermarkEffect (st : AppState) : AppState :=
  match st.image with
  | none => st
  | some img =>
      if st.signature = "" ∧ st.signatureImage = none then st
      else { st with watermarkedImage := some (composite (stateInput img st)) }

/-- Initial component state: the useState defaults of lines 11-20. -/
def initialAppState : AppState :=
  { image := none, signature := "", signatureImage := none,
    watermarkedImage := none, opacity := 1 / 2, angle := 45, density := 3,
    fontSize := 20, textColor := "#000000", signatureSize := 100 }

/-- User-interface events, one per state setter reachable from the
component's handlers. -/
inductive UIEvent where
  | typeSignature (s : String)
  | loadBaseImage (img : RasterImage)
  | loadSignatureImage (img : RasterImage)
  | removeSignatureImage
  | setOpacityTo (q : ℚ)
  | setAngleTo (q : ℚ)
  | setDensityTo (n : ℕ)
  | setFontSizeTo (n : ℕ)
  | setTextColorTo (c : String)
  | setSignatureSizeTo (n : ℕ)
  | resetAllFields
  | runWatermarkEffect

/-- Effect of one event on the state: the text input writes signature
(line 621), the PNG upload writes signatureImage (line 255), the remove
button clears it (line 533), resetAll restores the defaults (lines
168-180), and the compositing effect runs after renders.  No handler
clears the other signature kind. -/
def uiStep (st : AppState) : UIEvent → AppState
  | UIEvent.typeSignature s => { st with signature := s }
  | UIEvent.loadBaseImage img => { st with image := some img }
  | UIEvent.loadSignatureImage img => { st with signatureImage := some img }
  | UIEvent.removeSignatureImage => { st with signatureImage := none }
  | UIEvent.setOpacityTo q => { st with opacity := q }
  | UIEvent.setAngleTo q => { st with angle := q }
  | UIEvent.setDensityTo n => { st with density := n }
  | UIEvent.setFontSizeTo n => { st with fontSize := n }
  | UIEvent.setTextColorTo c => { st with textColor := c }
  | UIEvent.setSignatureSizeTo n => { st with signatureSize := n }
  | UIEvent.resetAllFields => initialAppState
  | UIEvent.runWatermarkEffect => watermarkEffect st

/-- State after a sequence of events starting from the initial state. -/
def runUI (es : List UIEvent) : AppState := es.foldl uiStep initialAppState

/-- Both signature kinds present at once. -/
def bothSignatures (st : AppState) : Prop :=
  st.signature ≠ "" ∧ st.signatureImage ≠ none

instance (st : AppState) : Decidable (bothSignatures st) := by
  unfold bothSignatures
  infer_instance

/-- Embedding of applySteganography (lines 348-378), with the external
ts-steganography encode call as an explicit fallible parameter: encode
the fixed copyright message into the image, falling back to the original
image when encoding throws. -/
def applySteganography (encode : String → RasterImage → Except String RasterImage)
    (year : ℕ) (imageUrl : RasterImage) : RasterImage :=
  let hiddenMessage := "Copyright " ++ toString year
  match encode hiddenMessage imageUrl with
  | Except.ok encoded => encoded
  | Except.error _ => imageUrl

/-- Embedding of ctx.rotate((angle * Math.PI) / 180) (line 290): the
device-space position of a point drawn at p in the rotated coordinate
space. -/
noncomputable def rotatePoint (angleDeg : ℚ) (p : ℝ × ℝ) : ℝ × ℝ :=
  (p.1 * Real.cos (((angleDeg : ℝ) * Real.pi) / 180) -
      p.2 * Real.sin (((angleDeg : ℝ) * Real.pi) / 180),
    p.1 * Real.sin (((angleDeg : ℝ) * Real.pi) / 180) +
      p.2 * Real.cos (((angleDeg : ℝ) * Real.pi) / 180))

/-- Position argument of a recorded draw operation. -/
def opPos : DrawOp → ℚ × ℚ
  | DrawOp.fillText _ x y _ _ _ _ _ => (x, y)
  | DrawOp.drawImageScaled _ x y _ _ => (x, y)

/-- Device-space placements of the watermark tiles of a composite: the
recorded rotated-space positions pushed through the rotation that was in
force when they were drawn. -/
noncomputable def devicePlacements (out : CompositeOutput) : List (ℝ × ℝ) :=
  out.watermarkOps.map fun op =>
    rotatePoint out.angleDeg (((opPos op).1 : ℝ), ((opPos op).2 : ℝ))

/-- Positivity of the spacing for a positive-width base and a positive
density. -/
theorem spacing_pos (w h d : ℕ) (hw : 0 < w) (hd : 0 < d) :
    0 < spacing w h d := by
  apply div_pos
  · exact_mod_cast Nat.lt_of_lt_of_le hw (Nat.le_max_left _ _)
  · exact_mod_cast hd

/-- The loop over a nonempty range visits its start value. -/
theorem gridPositions_head_mem (start stop step : ℚ) (hstep : 0 < step)
    (hlt : start < stop) : start ∈ gridPositions start stop step := by
  rw [gridPositions_closed _ _ _ hstep]
  have hpos : 0 < Nat.ceil ((stop - start) / step) := by
    rw [Nat.ceil_pos]
    exact div_pos (by linarith) hstep
  exact List.mem_map.mpr ⟨0, List.mem_range.mpr hpos, by simp⟩

/-- A state with the base loaded, both signature inputs empty, and no
previously stored result. -/
def emptySigState : AppState :=
  { image := some janeBase, signature := "", signatureImage := none,
    watermarkedImage := none, opacity := 1, angle := 45, density := 3,
    fontSize := 20, textColor := "#000000", signatureSize := 100 }

/-- C4 counterexample: with the base loaded and no signature supplied the
effect produces no image at all — the stored result stays none, so the
operation does not return the base image (or any image) unchanged. -/
theorem no_signature_returns_nothing :
    emptySigState.image = some janeBase ∧ emptySigState.signature = "" ∧
      emptySigState.signatureImage = none ∧
      (watermarkEffect emptySigState).watermarkedImage = none ∧
      ∀ out : CompositeOutput,
        (watermarkEffect emptySigState).watermarkedImage ≠ some out := by
  refine ⟨rfl, rfl, rfl, rfl, ?_⟩
  intro out h
  exact Option.noConfusion h

/-- C4 (amended): when neither signature is supplied the compositing
effect is simply not run — the whole state, including any previously
stored result, is left unchanged without error; the base image is not
re-emitted as a result. -/
theorem no_signature_is_noop (st : AppState) (b : RasterImage)
    (hb : st.image = some b) (hs : st.signature = "")
    (hsi : st.signatureImage = none) :
    watermarkEffect st = st := by
  simp [watermarkEffect, hb, hs, hsi]

/-- A state with the base loaded, both signature inputs empty, and a
previously computed composite still stored. -/
def noopState : AppState :=
  { image := some janeBase, signature := "", signatureImage := none,
    watermarkedImage := some (composite janeInput), opacity := 1,
    angle := 45, density := 3, fontSize := 20, textColor := "#000000",
    signatureSize := 100 }

/-- Witness for C4's amended statement. -/
theorem no_signature_is_noop_witness :
    (noopState.image = some janeBase ∧ noopState.signature = "" ∧
        noopState.signatureImage = none) ∧
      watermarkEffect noopState = noopState :=
  ⟨⟨rfl, rfl, rfl⟩, no_signature_is_noop noopState janeBase rfl rfl rfl⟩

/-- C5: when the steganographic encode step fails, the export returns the
composited input image unchanged instead of propagating the error. -/
theorem stego_failure_falls_back
    (encode : String → RasterImage → Except String RasterImage)
    (year : ℕ) (img : RasterImage)
    (hfail : ∀ m : String, ∀ i : RasterImage,
      ∃ e : String, encode m i = Except.error e) :
    applySteganography encode year img = img := by
  obtain ⟨e, he⟩ := hfail ("Copyright " ++ toString year) img
  simp [applySteganography, he]

/-- An encoder that always fails. -/
def failingEncoder : String → RasterImage → Except String RasterImage :=
  fun _ _ => Except.error "encoding capacity exceeded"

/-- Witness for C5 with an always-failing encoder. -/
theorem stego_failure_falls_back_witness :
    (∀ m : String, ∀ i : RasterImage,
        ∃ e : String, failingEncoder m i = Except.error e) ∧
      applySteganography failingEncoder 2025 janeBase = janeBase :=
  ⟨fun _ _ => ⟨"encoding capacity exceeded", rfl⟩,
    stego_failure_falls_back failingEncoder 2025 janeBase
      (fun _ _ => ⟨"encoding capacity exceeded", rfl⟩)⟩

/-- C6 counterexample: typing a text signature and then uploading a PNG
signature reaches a state in which both signature kinds are supplied at
once, so the claim that such a state is never reachable is false. -/
theorem both_signatures_reachable :
    ¬ ∀ es : List UIEvent, ¬ bothSignatures (runUI es) := by
  intro hclaim
  exact hclaim
    [UIEvent.typeSignature "Jane Doe", UIEvent.loadSignatureImage sig200]
    ⟨by decide, by decide⟩

/-- C6 (amended): both signature kinds can be supplied simultaneously,
and the compositor then draws both — with a non-empty text and a raster
signature present, the composite contains both a text draw and a raster
draw. -/
theorem both_signatures_both_drawn (inp : CompositorInput)
    (sig : RasterImage) (hs : inp.signature ≠ "")
    (hsi : inp.signatureImage = some sig) (hw : 0 < inp.image.width)
    (hh : 0 < inp.image.height) (hd : 0 < inp.density) :
    (∃ x y : ℚ, DrawOp.fillText inp.signature x y inp.fontSize
        (parseHexByte inp.textColor 1) (parseHexByte inp.textColor 3)
        (parseHexByte inp.textColor 5) inp.opacity ∈
          (composite inp).watermarkOps)
    ∧ (∃ x y dw dh : ℚ,
        DrawOp.drawImageScaled sig x y dw dh ∈ (composite inp).watermarkOps) := by
  have hsq := spacing_pos inp.image.width inp.image.height inp.density hw hd
  have hhq : (0 : ℚ) < (inp.image.height : ℚ) := by exact_mod_cast hh
  have hwq : (0 : ℚ) < (inp.image.width : ℚ) := by exact_mod_cast hw
  have hym : -(inp.image.height : ℚ) ∈
      gridPositions (-(inp.image.height : ℚ)) ((inp.image.height : ℚ) * 2)
        (spacing inp.image.width inp.image.height inp.density) :=
    gridPositions_head_mem _ _ _ hsq (by linarith)
  have hxm : -(inp.image.width : ℚ) ∈
      gridPositions (-(inp.image.width : ℚ)) ((inp.image.width : ℚ) * 2)
        (spacing inp.image.width inp.image.height inp.density) :=
    gridPositions_head_mem _ _ _ hsq (by linarith)
  constructor
  · refine ⟨-(inp.image.width : ℚ), -(inp.image.height : ℚ), ?_⟩
    simp only [composite, List.mem_append]
    left
    rw [if_pos hs]
    exact List.mem_flatMap.mpr ⟨_, hym, List.mem_map.mpr ⟨_, hxm, rfl⟩⟩
  · refine ⟨-(inp.image.width : ℚ), -(inp.image.height : ℚ),
      ((inp.image.width : ℚ) * (inp.signatureSize : ℚ)) / 100,
      (((inp.image.width : ℚ) * (inp.signatureSize : ℚ)) / 100) /
        ((sig.width : ℚ) / (sig.height : ℚ)), ?_⟩
    simp only [composite, hsi, List.mem_append]
    right
    exact List.mem_flatMap.mpr ⟨_, hym, List.mem_map.mpr ⟨_, hxm, rfl⟩⟩

/-- A compositor input with both a text and a raster signature. -/
def bothInput : CompositorInput :=
  { image := janeBase, signature := "Jane Doe", signatureImage := some sig200,
    opacity := 1, angle := 45, density := 3, fontSize := 20,
    textColor := "#000000", signatureSize := 100 }

/-- Witness for C6's amended statement. -/
theorem both_signatures_both_drawn_witness :
    (bothInput.signature ≠ "" ∧ bothInput.signatureImage = some sig200 ∧
        0 < bothInput.image.width ∧ 0 < bothInput.image.height ∧
        0 < bothInput.density) ∧
      ((∃ x y : ℚ, DrawOp.fillText bothInput.signature x y bothInput.fontSize
          (parseHexByte bothInput.textColor 1) (parseHexByte bothInput.textColor 3)
          (parseHexByte bothInput.textColor 5) bothInput.opacity ∈
            (composite bothInput).watermarkOps)
      ∧ (∃ x y dw dh : ℚ,
          DrawOp.drawImageScaled sig200 x y dw dh ∈
            (composite bothInput).watermarkOps)) :=
  ⟨⟨by decide, rfl, by decide, by decide, by decide⟩,
    both_signatures_both_drawn bothInput sig200 (by decide) rfl
      (by decide) (by decide) (by decide)⟩

/-- C7: compositing is a deterministic pure function of its input —
identical inputs always produce identical outputs. -/
theorem composite_deterministic (a b : CompositorInput) (h : a = b) :
    composite a = composite b :=
  congrArg composite h

/-- Witness for C7 at the text scenario input. -/
theorem composite_deterministic_witness :
    janeInput = janeInput ∧ composite janeInput = composite janeInput :=
  ⟨rfl, composite_deterministic janeInput janeInput rfl⟩

/-- Rotating by 360 degrees and by 0 degrees move a drawn point to the
same device position. -/
theorem rotatePoint_360_eq_0 (p : ℝ × ℝ) : rotatePoint 360 p = rotatePoint 0 p := by
  unfold rotatePoint
  have h1 : ((((360 : ℚ) : ℝ)) * Real.pi) / 180 = 2 * Real.pi := by
    push_cast
    ring
  have h2 : ((((0 : ℚ) : ℝ)) * Real.pi) / 180 = 0 := by
    push_cast
    ring
  rw [h1, h2, Real.cos_two_pi, Real.sin_two_pi, Real.cos_zero, Real.sin_zero]

/-- C9: with all other inputs fixed, compositing at angle 360 and at
angle 0 records identical watermark operations and places every tile at
the identical device position. -/
theorem angle_360_same_placement (inp : CompositorInput) :
    (composite { inp with angle := (360 : ℚ) }).watermarkOps =
        (composite { inp with angle := (0 : ℚ) }).watermarkOps
    ∧ devicePlacements (composite { inp with angle := (360 : ℚ) }) =
        devicePlacements (composite { inp with angle := (0 : ℚ) }) := by
  have hops : (composite { inp with angle := (360 : ℚ) }).watermarkOps =
      (composite { inp with angle := (0 : ℚ) }).watermarkOps := by
    cases inp
    rfl
  refine ⟨hops, ?_⟩
  unfold devicePlacements
  rw [hops]
  refine List.map_congr_left ?_
  intro op _
  have h360 : (composite { inp with angle := (360 : ℚ) }).angleDeg = 360 := rfl
  have h0 : (composite { inp with angle := (0 : ℚ) }).angleDeg = 0 := rfl
  rw [h360, h0, rotatePoint_360_eq_0]

/-- A state holding a previously computed composite while both signature
inputs have been cleared and the base image stays loaded. -/
def staleState : AppState :=
  { image := some janeBase, signature := "", signatureImage := none,
    watermarkedImage := some (composite janeInput), opacity := 1,
    angle := 45, density := 3, fontSize := 20, textColor := "#000000",
    signatureSize := 100 }

/-- C10: when both signature inputs become empty while the base stays
loaded, the stored watermarked result is left exactly as it was — it is
neither recomputed nor reset to the base image. -/
theorem stale_result_kept (st : AppState) (b : RasterImage)
    (prev : CompositeOutput) (hb : st.image = some b)
    (hprev : st.watermarkedImage = some prev) (hs : st.signature = "")
    (hsi : st.signatureImage = none) :
    (watermarkEffect st).watermarkedImage = some prev := by
  simp [watermarkEffect, hb, hs, hsi, hprev]

/-- Witness for C10 at a concrete stale state. -/
theorem stale_result_kept_witness :
    (staleState.image = some janeBase ∧
        staleState.watermarkedImage = some (composite janeInput) ∧
        staleState.signature = "" ∧ staleState.signatureImage = none) ∧
      (watermarkEffect staleState).watermarkedImage = some (composite janeInput) :=
  ⟨⟨rfl, rfl, rfl, rfl⟩,
    stale_result_kept staleState janeBase (composite janeInput) rfl rfl rfl rfl⟩

/-- Number of watermark tiles drawn per pass at the given base dimensions
and density. -/
def tileCount (w h d : ℕ) : ℕ := (tileGrid w h (spacing w h d)).length

/-- The tile count is the product of the per-axis iteration counts. -/
theorem tileCount_eq (w h d : ℕ) (hw : 0 < w) (hd : 0 < d) :
    tileCount w h d =
      Nat.ceil ((3 * (h : ℚ)) / spacing w h d) *
        Nat.ceil ((3 * (w : ℚ)) / spacing w h d) := by
  have hs := spacing_pos w h d hw hd
  have hx : (gridPositions (-(w : ℚ)) ((w : ℚ) * 2) (spacing w h d)).length =
      Nat.ceil ((3 * (w : ℚ)) / spacing w h d) := by
    rw [gridPositions_length _ _ _ hs]
    congr 1
    ring_nf
  have hy : (gridPositions (-(h : ℚ)) ((h : ℚ) * 2) (spacing w h d)).length =
      Nat.ceil ((3 * (h : ℚ)) / spacing w h d) := by
    rw [gridPositions_length _ _ _ hs]
    congr 1
    ring_nf
  rw [tileCount, tileGrid, List.length_flatMap]
  simp only [Function.comp_def, List.length_map, List.map_const',
    List.sum_replicate, smul_eq_mul]
  rw [hy, hx]

/-- C8: the spacing is positive, independent of the rotation angle, and
strictly decreasing in the density, and increasing the density never
yields fewer tiles. -/
theorem spacing_density_relations (w h d d' : ℕ) (inp : CompositorInput)
    (a : ℚ) (hw : 0 < w) (hh : 0 < h) (hd : 0 < d) (hdd : d < d') :
    0 < spacing w h d
    ∧ spacing w h d' < spacing w h d
    ∧ tileCount w h d ≤ tileCount w h d'
    ∧ (composite { inp with angle := a }).watermarkOps =
        (composite inp).watermarkOps := by
  have hd' : 0 < d' := lt_trans hd hdd
  have hs := spacing_pos w h d hw hd
  have hs' := spacing_pos w h d' hw hd'
  have hmaxq : (0 : ℚ) < ((Nat.max w h : ℕ) : ℚ) := by
    exact_mod_cast Nat.lt_of_lt_of_le hw (Nat.le_max_left _ _)
  have hdq : (0 : ℚ) < (d : ℚ) := by exact_mod_cast hd
  have hdq' : (d : ℚ) < (d' : ℚ) := by exact_mod_cast hdd
  have hlt : spacing w h d' < spacing w h d := by
    rw [spacing, spacing]
    gcongr
  have hsle : spacing w h d' ≤ spacing w h d := le_of_lt hlt
  refine ⟨hs, hlt, ?_, ?_⟩
  · rw [tileCount_eq w h d hw hd, tileCount_eq w h d' hw hd']
    have h3h : (0 : ℚ) ≤ 3 * (h : ℚ) := by positivity
    have h3w : (0 : ℚ) ≤ 3 * (w : ℚ) := by positivity
    exact Nat.mul_le_mul (Nat.ceil_mono (by gcongr)) (Nat.ceil_mono (by gcongr))
  · cases inp
    rfl

/-- Witness for C8 at 800×600 with densities 3 and 4. -/
theorem spacing_density_relations_witness :
    ((0 : ℕ) < 800 ∧ (0 : ℕ) < 600 ∧ (0 : ℕ) < 3 ∧ (3 : ℕ) < 4) ∧
      (0 < spacing 800 600 3
        ∧ spacing 800 600 4 < spacing 800 600 3
        ∧ tileCount 800 600 3 ≤ tileCount 800 600 4
        ∧ (composite { janeInput with angle := (0 : ℚ) }).watermarkOps =
            (composite janeInput).watermarkOps) :=
  ⟨⟨by decide, by decide, by decide, by decide⟩,
    spacing_density_relations 800 600 3 4 janeInput 0 (by decide) (by decide)
      (by decide) (by decide)⟩

end ProtectorIMG
